import Mathlib

/-!
Shallow embedding of the jukebox IndexManager (src/src/managers/index_manager.cpp):
the variant merge engine (getNongs), its sort comparator, the download pipeline
bookkeeping (downloadSong and its terminal listener), the catalog fetch response
processing (fetchIndexes), and the progress query (getSongDownloadProgress).
std::string is modelled as String, machine floats as exact rationals, the file
system and JSON library as explicit oracles passed in as parameters.
-/

namespace Jukebox

/-- Modelled from the spec: the variant kind enum NongType (include/nong.hpp is not
in src/); kinds are Local, Hosted, YouTube. -/
inductive NongType where
  | LOCAL
  | HOSTED
  | YOUTUBE
deriving DecidableEq, Repr

/-- Modelled from the spec: SongMetadata (include/nong.hpp is not in src/): gdID,
uniqueID, name, artist, optional local path, startOffset. -/
structure SongMetadata where
  gdID : Int
  uniqueID : String
  name : String
  artist : String
  path : Option String
  startOffset : Int
deriving DecidableEq, Repr

/-- Modelled from the spec: a variant (Song base class of LocalSong/HostedSong/YTSong,
include/nong.hpp is not in src/). Common capability: metadata(), type(), path(),
indexID(); kind-specific payloads (url, ytID) are passed separately where needed. -/
structure Song where
  type : NongType
  metadata : SongMetadata
  indexID : Option String
deriving DecidableEq, Repr

/-- Modelled from the spec: Song::path() exposes the optional materialized file path
of the variant (carried in its metadata). -/
def Song.path (s : Song) : Option String :=
  s.metadata.path

/-- Modelled from the spec: the per-song variant collection Nongs (include/nong.hpp is
not in src/): one designated default variant plus ordered sequences of Local, Hosted
and YouTube non-default variants. -/
structure Nongs where
  gdID : Int
  defaultSong : Song
  locals : List Song
  hosted : List Song
  youtube : List Song
deriving DecidableEq, Repr

/-- One pass of the inner loop of IndexManager::getNongs (index_manager.cpp:317-343):
for a local song s, if s carries an indexID, every same-kind index song sharing its
uniqueID causes s's uniqueID to be pushed onto addedIndexSongs. -/
def matchedIndexIDs (idxList : List Song) (s : Song) : List String :=
  if s.indexID.isSome then
    idxList.filterMap fun t =>
      if t.metadata.uniqueID == s.metadata.uniqueID then some s.metadata.uniqueID
      else none
  else []

/-- The addedIndexSongs vector built by IndexManager::getNongs (index_manager.cpp:316-343):
uniqueIDs of local YouTube/Hosted variants that carry an indexID and match a same-kind
index variant; empty when no index collection exists for the song id. -/
def addedIndexSongs (ln : Nongs) (idx : Option Nongs) : List String :=
  match idx with
  | none => []
  | some i =>
      (ln.youtube.map (matchedIndexIDs i.youtube)).flatten ++
        (ln.hosted.map (matchedIndexIDs i.hosted)).flatten

/-- The index-sourced portion appended by IndexManager::getNongs (index_manager.cpp:345-363):
index YouTube then Hosted variants whose uniqueID is not in addedIndexSongs. -/
def indexAppended (ln : Nongs) (idx : Option Nongs) : List Song :=
  match idx with
  | none => []
  | some i =>
      let added := addedIndexSongs ln idx
      i.youtube.filter (fun s => !(added.contains s.metadata.uniqueID)) ++
        i.hosted.filter (fun s => !(added.contains s.metadata.uniqueID))

/-- The locally-sourced portion of the merged list (index_manager.cpp:310-343):
default variant, then local Local variants, then local YouTube, then local Hosted. -/
def baseList (ln : Nongs) : List Song :=
  ln.defaultSong :: (ln.locals ++ ln.youtube ++ ln.hosted)

/-- The full merged list built by IndexManager::getNongs before sorting
(index_manager.cpp:310-363). -/
def mergedList (ln : Nongs) (idx : Option Nongs) : List Song :=
  baseList ln ++ indexAppended ln idx

/-- The sortedNongType rank map of IndexManager::getNongs (index_manager.cpp:365-366):
LOCAL 1, HOSTED 2, YOUTUBE 3. -/
def sortedNongType : NongType → Int
  | NongType.LOCAL => 1
  | NongType.HOSTED => 2
  | NongType.YOUTUBE => 3

/-- The condition path().has_value() && std::filesystem::exists(path().value()) used by
the sort comparator (index_manager.cpp:393-401); the file system is an oracle. -/
def pathOnDisk (fsExists : String → Bool) (s : Song) : Bool :=
  match s.path with
  | some p => fsExists p
  | none => false

/-- The sort comparator lambda of IndexManager::getNongs (index_manager.cpp:368-418):
default first, then no-indexID before indexID, then file-on-disk before not, then by
kind rank, then (dead rule) indexID presence, then lexicographic name. -/
def songLt (fsExists : String → Bool) (defaultUniqueID : String) (a b : Song) : Bool :=
  if a.metadata.uniqueID == defaultUniqueID then true
  else if b.metadata.uniqueID == defaultUniqueID then false
  else if !a.indexID.isSome && b.indexID.isSome then true
  else if a.indexID.isSome && !b.indexID.isSome then false
  else if pathOnDisk fsExists a && !(pathOnDisk fsExists b) then true
  else if !(pathOnDisk fsExists a) && pathOnDisk fsExists b then false
  else if a.type ≠ b.type then decide (sortedNongType a.type < sortedNongType b.type)
  else if a.indexID.isSome ≠ b.indexID.isSome then !a.indexID.isSome && b.indexID.isSome
  else decide (a.metadata.name < b.metadata.name)

/-- Insert one element into a comparator-sorted list (helper for the model of
std::sort at index_manager.cpp:368). -/
def insertSorted (lt : Song → Song → Bool) (x : Song) : List Song → List Song
  | [] => [x]
  | y :: ys => if lt y x then y :: insertSorted lt x ys else x :: y :: ys

/-- Model of the std::sort call of IndexManager::getNongs (index_manager.cpp:368):
std::sort guarantees only some comparator-sorted permutation; we model it by a
deterministic insertion sort over the same comparator. -/
def sortSongs (lt : Song → Song → Bool) : List Song → List Song
  | [] => []
  | x :: xs => insertSorted lt x (sortSongs lt xs)

/-- IndexManager::getNongs (index_manager.cpp:296-421): fails when the local store has
no entry for the song id, otherwise merges local and index variants and sorts with the
comparator. The local store and index table contents are passed in explicitly. -/
def getNongs (fsExists : String → Bool) (localNongs : Option Nongs)
    (idx : Option Nongs) : Except String (List Song) :=
  match localNongs with
  | none => Except.error "Failed to get nongs"
  | some ln =>
      Except.ok
        (sortSongs (songLt fsExists ln.defaultSong.metadata.uniqueID) (mergedList ln idx))

/-- Decidable equality for Except values (used to evaluate task results on concrete
inputs). -/
def exceptDecEq {ε α : Type} [DecidableEq ε] [DecidableEq α] :
    (a b : Except ε α) → Decidable (a = b)
  | Except.error e, Except.error f =>
      if h : e = f then Decidable.isTrue (by rw [h])
      else Decidable.isFalse (by intro hh; cases hh; exact h rfl)
  | Except.error _, Except.ok _ => Decidable.isFalse (by intro h; cases h)
  | Except.ok _, Except.error _ => Decidable.isFalse (by intro h; cases h)
  | Except.ok a, Except.ok b =>
      if h : a = b then Decidable.isTrue (by rw [h])
      else Decidable.isFalse (by intro hh; cases hh; exact h rfl)

instance {ε α : Type} [DecidableEq ε] [DecidableEq α] : DecidableEq (Except ε α) :=
  exceptDecEq

/-- Events posted by the download pipeline (SongErrorEvent, SongStateChangedEvent,
SongDownloadProgressEvent; src/src/events). Floats are modelled as rationals. -/
inductive DlEvent where
  | errorEvent (userFacing : Bool) (msg : String)
  | stateChanged (gdID : Int)
  | progressEvent (gdID : Int) (uniqueID : String) (fraction : ℚ)
deriving DecidableEq, Repr

/-- The download bookkeeping owned by IndexManager: m_downloadSongListeners (keyed by
uniqueID, each listener closing over its task's gdID) and m_downloadProgress. -/
structure PipelineState where
  listeners : List (String × Int)
  progress : List (String × ℚ)
deriving DecidableEq, Repr

/-- Model of std::unordered_map lookup on an association list (first entry wins). -/
def mapLookup {α : Type} (m : List (String × α)) (k : String) : Option α :=
  match m with
  | [] => none
  | p :: ps => if p.1 == k then some p.2 else mapLookup ps k

/-- Model of std::unordered_map::erase on an association list. -/
def eraseKey {α : Type} (m : List (String × α)) (k : String) : List (String × α) :=
  m.filter fun p => !(p.1 == k)

/-- Model of std::unordered_map::emplace on an association list: inserts only when the
key is absent (index_manager.cpp:666). -/
def emplaceKey {α : Type} (m : List (String × α)) (k : String) (v : α) : List (String × α) :=
  if m.any (fun p => p.1 == k) then m else m ++ [(k, v)]

/-- Model of operator[] assignment on an association list (index_manager.cpp:667). -/
def setKey {α : Type} (m : List (String × α)) (k : String) (v : α) : List (String × α) :=
  if m.any (fun p => p.1 == k) then m.map (fun p => if p.1 == k then (p.1, v) else p)
  else m ++ [(k, v)]

/-- Modelled from the spec: cooperative cancellation delivery of the web-task
collaborator (Geode's Task/EventListener, not part of this repository). The spec states
that starting a new download cancels the previous one synchronously before proceeding,
so cancel() here synchronously runs the old task's terminal listener in its cancelled
branch (index_manager.cpp:632-637): erase both bookkeeping entries, post the
cancellation error event and the state-changed event for the old task's gdID. -/
def cancelOld (st : PipelineState) (id : String) : PipelineState × List DlEvent :=
  match mapLookup st.listeners id with
  | none => (st, [])
  | some gdOld =>
      ({ listeners := eraseKey st.listeners id, progress := eraseKey st.progress id },
        [DlEvent.errorEvent false "Failed to fetch song: cancelled",
          DlEvent.stateChanged gdOld])

/-- The bookkeeping part of IndexManager::downloadSong(Song*) (index_manager.cpp:437-670):
reject Local variants, cancel any live task for the uniqueID, register the new listener
via emplace, reset progress to zero and post the zero-progress event. -/
def downloadSongStart (st : PipelineState) (gdSongID : Int) (id : String)
    (isLocalVariant : Bool) : PipelineState × List DlEvent × Except String Unit :=
  if isLocalVariant then (st, [], Except.error "Cant download local song")
  else
    let r := cancelOld st id
    let st2 : PipelineState :=
      { listeners := emplaceKey r.1.listeners id gdSongID,
        progress := setKey r.1.progress id 0 }
    (st2, r.2 ++ [DlEvent.progressEvent gdSongID id 0], Except.ok ())

/-- One event delivered to the download task's listener (index_manager.cpp:625): either
a progress tick, a cancellation, or the task's finished value (Ok destination path or
an error string). -/
inductive TaskOutcome where
  | progress (p : ℚ)
  | cancelled
  | finished (value : Except String String)
deriving DecidableEq, Repr

/-- Whether a task listener event is a progress tick (event->getProgress() non-null). -/
def TaskOutcome.isProgressTick : TaskOutcome → Bool
  | TaskOutcome.progress _ => true
  | _ => false

/-- Observable actions of the download task's terminal listener
(index_manager.cpp:625-664), in execution order. -/
inductive DlAction where
  | setProgress (uniqueID : String) (p : ℚ)
  | postProgress (gdID : Int) (uniqueID : String) (p : ℚ)
  | eraseProgress (uniqueID : String)
  | eraseListener (uniqueID : String)
  | postError (userFacing : Bool) (msg : String)
  | postStateChanged (gdID : Int)
  | setIndexID (uniqueID : String)
  | setActive (gdID : Int) (uniqueID : String)
deriving DecidableEq, Repr

/-- Whether an action is the state-changed notification. -/
def isStateChangedA : DlAction → Bool
  | DlAction.postStateChanged _ => true
  | _ => false

/-- The download task's listener body (index_manager.cpp:625-664) as the ordered list of
actions it performs for one delivered event; setActiveRes is the result returned by
NongManager::setActiveSong when it gets called. -/
def downloadTerminalActions (gdSongID : Int) (id : String) (o : TaskOutcome)
    (setActiveRes : Except String Unit) : List DlAction :=
  match o with
  | TaskOutcome.progress p => [DlAction.setProgress id p, DlAction.postProgress gdSongID id p]
  | TaskOutcome.cancelled =>
      [DlAction.eraseProgress id, DlAction.eraseListener id,
        DlAction.postError false "Failed to fetch song: cancelled",
        DlAction.postStateChanged gdSongID]
  | TaskOutcome.finished (Except.error e) =>
      [DlAction.eraseProgress id, DlAction.eraseListener id,
        DlAction.postError true ("Failed to fetch song: " ++ e),
        DlAction.postStateChanged gdSongID]
  | TaskOutcome.finished (Except.ok dest) =>
      [DlAction.eraseProgress id, DlAction.eraseListener id] ++
        (if dest.length = 0 then [DlAction.postStateChanged gdSongID]
         else
           DlAction.setIndexID id ::
             (match setActiveRes with
              | Except.error e =>
                  [DlAction.setActive gdSongID id,
                    DlAction.postError true ("Failed to set song as active: " ++ e),
                    DlAction.postStateChanged gdSongID]
              | Except.ok _ =>
                  [DlAction.setActive gdSongID id, DlAction.postStateChanged gdSongID]))

/-- A web response as seen by the hosted download's map lambda
(index_manager.cpp:600-620): HTTP success flag and body bytes. -/
structure WebResponse where
  ok : Bool
  data : List Nat
deriving DecidableEq, Repr

/-- The hosted branch's response map (index_manager.cpp:600-616): on success write the
body to a freshly generated path and return that path; otherwise fail. Returns the task
value together with the file writes performed (path, byte count). -/
def hostedFetchMap (genPath : String) (resp : WebResponse) :
    Except String String × List (String × Nat) :=
  if resp.ok then (Except.ok genPath, [(genPath, resp.data.length)])
  else (Except.error "Web request failed", [])

/-- A full hosted download delivery: the fetch map applied to the response, fed into the
terminal listener. Returns (file writes, listener actions). -/
def hostedDownloadRun (gdSongID : Int) (id : String) (genPath : String)
    (resp : WebResponse) (setActiveRes : Except String Unit) :
    List (String × Nat) × List DlAction :=
  let r := hostedFetchMap genPath resp
  (r.2, downloadTerminalActions gdSongID id (TaskOutcome.finished r.1) setActiveRes)

/-- A network request issued by the YouTube download task: the Cobalt resolver POST
(index_manager.cpp:580-591) or the resolved audio GET (index_manager.cpp:574-577). -/
inductive YtRequest where
  | resolverPost (videoUrl : String)
  | audioGet (url : String)
deriving DecidableEq, Repr

/-- The fields of the Cobalt metadata JSON inspected by the code
(index_manager.cpp:510-521): the status string and the url field (none models a
missing or non-string url). -/
structure MetaJson where
  status : Option String
  url : Option String
deriving DecidableEq, Repr

/-- The Cobalt metadata response: HTTP success flag and parsed JSON (error models a
failed json() parse). -/
structure MetaResponse where
  ok : Bool
  json : Except String MetaJson
deriving DecidableEq, Repr

/-- The YouTube download task body (index_manager.cpp:457-592) as a function of the
video id and the oracles for each suspension point: returns the task value and the
network requests issued, in order. The 11-character precondition is checked before any
listener is bound or request issued. -/
def ytTaskRun (ytID : String) (cancelledA : Bool) (meta : MetaResponse)
    (cancelledB : Bool) (audioOk : Bool) (genPath : String) :
    Except String String × List YtRequest :=
  if ytID.length ≠ 11 then (Except.error "Invalid YouTube ID", [])
  else
    let post := YtRequest.resolverPost ("https://www.youtube.com/watch?v=" ++ ytID)
    if cancelledA then
      (Except.error "Cancelled while fetching song metadata from Cobalt", [post])
    else
      match meta.json with
      | Except.error _ =>
          (Except.error "Unable to get/parse Cobalt metadata response", [post])
      | Except.ok j =>
          if !meta.ok then
            (Except.error "Unable to get/parse Cobalt metadata response", [post])
          else if j.status ≠ some "stream" then
            (Except.error "Cobalt metadata response is not a stream", [post])
          else
            match j.url with
            | none => (Except.error "Cobalt metadata bad response", [post])
            | some audioUrl =>
                let get := YtRequest.audioGet audioUrl
                if cancelledB then
                  (Except.error "Cancelled while fetching song data from Cobalt",
                    [post, get])
                else if !audioOk then
                  (Except.error "Unable to get Cobalt song response", [post, get])
                else (Except.ok genPath, [post, get])

/-- Stage-A progress formula of the Cobalt metadata listener (index_manager.cpp:486-489):
raw resolver progress divided by 1000. -/
def stageAProgress (raw : ℚ) : ℚ :=
  raw / 1000

/-- Stage-B progress formula of the Cobalt song listener (index_manager.cpp:535-539):
raw fetch percentage divided by 100, scaled by 0.9 and offset by 0.1. -/
def stageBProgress (raw : ℚ) : ℚ :=
  raw / 100 * (9 / 10) + 1 / 10

/-- The sequence of progress fractions reported by one YouTube task, given the raw
progress values delivered in stage A then stage B. -/
def ytReportedProgress (aRaws bRaws : List ℚ) : List ℚ :=
  aRaws.map stageAProgress ++ bRaws.map stageBProgress

/-- The operations of the matjson collaborator used by the index fetch
(index_manager.cpp:199-235), abstracted over the JSON value type. -/
structure JsonOps (J : Type) where
  parse : String → Except String J
  isObject : J → Bool
  setUrl : J → String → J
  validate : J → Except String Unit
  dump : J → String

/-- A web response as seen by the index fetch's map lambda: HTTP success flag,
whether the body decodes as a string, and the body. -/
structure FetchResponse where
  ok : Bool
  strOk : Bool
  body : String
deriving DecidableEq, Repr

/-- The index fetch's response map (index_manager.cpp:199-235): parse, require an
object, inject the source url, re-validate against the catalog schema, then overwrite
the per-URL cache file with the canonical serialization. Returns the task value and the
content written to the cache file (none when the file is untouched). -/
def processIndexResponse {J : Type} (ops : JsonOps J) (url : String) (filepath : String)
    (fileOpenOk : Bool) (resp : FetchResponse) : Except String Unit × Option String :=
  if resp.ok && resp.strOk then
    match ops.parse resp.body with
    | Except.error e => (Except.error e, none)
    | Except.ok j =>
        if !(ops.isObject j) then (Except.error "Index supposed to be an object", none)
        else
          let j2 := ops.setUrl j url
          match ops.validate j2 with
          | Except.error e => (Except.error e, none)
          | Except.ok _ =>
              if !fileOpenOk then
                (Except.error ("Failed to open file: " ++ filepath), none)
              else (Except.ok (), some (ops.dump j2))
  else (Except.error "Web request failed", none)

/-- Observable actions of the index fetch listener (index_manager.cpp:241-262). -/
inductive FetchAction where
  | eraseFetchListener (url : String)
  | postError (msg : String)
  | loadIndex (path : String)
deriving DecidableEq, Repr

/-- The index fetch listener body (index_manager.cpp:241-262) for a non-progress event:
erase the in-flight entry, report a fetch error when the task value is an error
(none models a cancelled task), then always load the cached file via loadIndex,
reporting a load error when that fails. -/
def fetchListenerTerminal (url filepath : String) (result : Option (Except String Unit))
    (loadRes : Except String Unit) : List FetchAction :=
  [FetchAction.eraseFetchListener url] ++
    (match result with
     | some (Except.error e) => [FetchAction.postError ("Failed to fetch index: " ++ e)]
     | _ => []) ++
    [FetchAction.loadIndex filepath] ++
    (match loadRes with
     | Except.error e => [FetchAction.postError ("Failed to load index: " ++ e)]
     | Except.ok _ => [])

/-- A remote catalog descriptor from the settings collaborator (IndexSource). -/
structure IndexSource where
  url : String
  enabled : Bool
deriving DecidableEq, Repr

/-- The IndexManager state touched by fetchIndexes: in-flight fetch listeners (keyed by
url), the in-memory index-variant table, and the download bookkeeping. -/
structure IMState where
  indexListenerUrls : List String
  indexNongs : List (Int × Nongs)
  downloadListeners : List (String × Int)
  downloadProgress : List (String × ℚ)

/-- The synchronous part of IndexManager::fetchIndexes (index_manager.cpp:168-268):
clears the fetch listeners, the index-variant table and the download listener map
(m_downloadProgress is not cleared), then registers one fetch listener per enabled
source whose url has length at least 3; on a settings failure it returns after the
clears. -/
def fetchIndexesState (st : IMState) (sources : Except String (List IndexSource)) :
    IMState :=
  let st0 : IMState :=
    { indexListenerUrls := [], indexNongs := [], downloadListeners := [],
      downloadProgress := st.downloadProgress }
  match sources with
  | Except.error _ => st0
  | Except.ok idxs =>
      { st0 with
          indexListenerUrls :=
            (idxs.filter (fun i => i.enabled && decide (3 ≤ i.url.length))).map
              (fun i => i.url) }

/-- IndexManager::getSongDownloadProgress (index_manager.cpp:270-276): consults the
listener map before reading the progress map (m_downloadProgress.at is modelled by
lookup; the two maps are maintained together on every code path). -/
def getSongDownloadProgress (st : IMState) (uniqueID : String) : Option ℚ :=
  if st.downloadListeners.any (fun p => p.1 == uniqueID) then
    mapLookup st.downloadProgress uniqueID
  else none

/-- Concrete default variant (Local, uniqueID "d") for evaluating the merge engine. -/
def cexDefault : Song :=
  { type := NongType.LOCAL,
    metadata :=
      { gdID := 1, uniqueID := "d", name := "D", artist := "A", path := none,
        startOffset := 0 },
    indexID := none }

/-- Concrete local YouTube variant with uniqueID "x" and no indexID. -/
def cexLocalYt : Song :=
  { type := NongType.YOUTUBE,
    metadata :=
      { gdID := 1, uniqueID := "x", name := "L", artist := "A", path := none,
        startOffset := 0 },
    indexID := none }

/-- Concrete index-sourced YouTube variant sharing uniqueID "x". -/
def cexIndexYt : Song :=
  { type := NongType.YOUTUBE,
    metadata :=
      { gdID := 1, uniqueID := "x", name := "I", artist := "A", path := none,
        startOffset := 0 },
    indexID := some "idx" }

/-- Concrete local store contents: default "d" plus the local YouTube variant "x". -/
def cexLocalNongs : Nongs :=
  { gdID := 1, defaultSong := cexDefault, locals := [], hosted := [],
    youtube := [cexLocalYt] }

/-- Concrete index table entry holding the index YouTube variant "x". -/
def cexIndexNongs : Nongs :=
  { gdID := 1, defaultSong := cexDefault, locals := [], hosted := [],
    youtube := [cexIndexYt] }

/-- Concrete local YouTube variant with uniqueID "y" that carries an indexID. -/
def wLocalYt : Song :=
  { type := NongType.YOUTUBE,
    metadata :=
      { gdID := 2, uniqueID := "y", name := "LW", artist := "A", path := none,
        startOffset := 0 },
    indexID := some "idx" }

/-- Concrete index-sourced YouTube variant sharing uniqueID "y". -/
def wIndexYt : Song :=
  { type := NongType.YOUTUBE,
    metadata :=
      { gdID := 2, uniqueID := "y", name := "IW", artist := "A", path := none,
        startOffset := 0 },
    indexID := some "idx" }

/-- Concrete default variant for the gdID 2 collections. -/
def wDefault : Song :=
  { type := NongType.LOCAL,
    metadata :=
      { gdID := 2, uniqueID := "d2", name := "D2", artist := "A", path := none,
        startOffset := 0 },
    indexID := none }

/-- Concrete local store contents whose YouTube variant carries an indexID. -/
def wLocalNongs : Nongs :=
  { gdID := 2, defaultSong := wDefault, locals := [], hosted := [],
    youtube := [wLocalYt] }

/-- Concrete index table entry matching the indexID-carrying local variant. -/
def wIndexNongs : Nongs :=
  { gdID := 2, defaultSong := wDefault, locals := [], hosted := [],
    youtube := [wIndexYt] }

/-- Concrete JSON collaborator over String values, for evaluating the fetch path. -/
def opsW : JsonOps String :=
  { parse := fun s => Except.ok s,
    isObject := fun _ => true,
    setUrl := fun j u => j ++ u,
    validate := fun _ => Except.ok (),
    dump := fun j => j }

theorem insertSorted_perm (lt : Song → Song → Bool) (x : Song) :
    ∀ l : List Song, List.Perm (insertSorted lt x l) (x :: l)
  | [] => List.Perm.refl _
  | y :: ys => by
    by_cases h : lt y x = true
    · simp only [insertSorted, h, if_true]
      exact ((insertSorted_perm lt x ys).cons y).trans (List.Perm.swap x y ys)
    · simp [insertSorted, h]

theorem sortSongs_perm (lt : Song → Song → Bool) :
    ∀ l : List Song, List.Perm (sortSongs lt l) l
  | [] => List.Perm.refl _
  | x :: xs =>
      (insertSorted_perm lt x (sortSongs lt xs)).trans ((sortSongs_perm lt xs).cons x)

theorem mem_sortSongs {lt : Song → Song → Bool} {l : List Song} {a : Song}
    (h : a ∈ sortSongs lt l) : a ∈ l :=
  (sortSongs_perm lt l).mem_iff.mp h

theorem insertSorted_front (lt : Song → Song → Bool) (x : Song) :
    ∀ l : List Song, (∀ y ∈ l, lt y x = false) → insertSorted lt x l = x :: l
  | [], _ => rfl
  | y :: ys, h => by
    have hy : lt y x = false := h y (by simp)
    simp [insertSorted, hy]

theorem songLt_from_default (fs : String → Bool) (dU : String) (a b : Song)
    (h : a.metadata.uniqueID = dU) : songLt fs dU a b = true := by
  simp [songLt, h]

theorem songLt_to_default (fs : String → Bool) (dU : String) (a b : Song)
    (hb : b.metadata.uniqueID = dU) (ha : a.metadata.uniqueID ≠ dU) :
    songLt fs dU a b = false := by
  simp [songLt, hb, ha]

theorem songLt_asymm_nondefault (fs : String → Bool) (dU : String) (a b : Song)
    (ha : a.metadata.uniqueID ≠ dU) (hb : b.metadata.uniqueID ≠ dU)
    (h : songLt fs dU a b = true) : songLt fs dU b a = false := by
  have ha' : (a.metadata.uniqueID == dU) = false := by simp [ha]
  have hb' : (b.metadata.uniqueID == dU) = false := by simp [hb]
  by_cases ht : a.type = b.type
  · cases hia : a.indexID.isSome <;> cases hib : b.indexID.isSome <;>
      cases hpa : pathOnDisk fs a <;> cases hpb : pathOnDisk fs b <;>
        simp_all [songLt, ht] <;> exact le_of_lt h
  · cases hia : a.indexID.isSome <;> cases hib : b.indexID.isSome <;>
      cases hpa : pathOnDisk fs a <;> cases hpb : pathOnDisk fs b <;>
        simp_all [songLt, ht, Ne.symm ht] <;> omega

theorem chain'_insertSorted (lt : Song → Song → Bool) (x : Song) :
    ∀ l : List Song, List.Chain' (fun u v => lt v u = false) l →
      (∀ z ∈ l, lt z x = true → lt x z = false) →
      List.Chain' (fun u v => lt v u = false) (insertSorted lt x l)
  | [], _, _ => by simp [insertSorted]
  | y :: ys, hc, hx => by
    by_cases h : lt y x = true
    · have hxy : lt x y = false := hx y (by simp) h
      have ih :=
        chain'_insertSorted lt x ys hc.tail (fun z hz => hx z (by simp [hz]))
      simp only [insertSorted, h, if_true]
      cases ys with
      | nil => simpa [insertSorted] using hxy
      | cons z zs =>
        by_cases h2 : lt z x = true
        · rw [show insertSorted lt x (z :: zs) = z :: insertSorted lt x zs from by
            simp [insertSorted, h2]] at ih ⊢
          exact List.chain'_cons.mpr ⟨(List.chain'_cons.mp hc).1, ih⟩
        · rw [show insertSorted lt x (z :: zs) = x :: z :: zs from by
            simp [insertSorted, h2]]
          refine List.chain'_cons.mpr ⟨hxy, List.chain'_cons.mpr ⟨?_, hc.tail⟩⟩
          · simpa using h2
    · have h' : lt y x = false := by simpa using h
      simp only [insertSorted, h', Bool.false_eq_true, if_false]
      exact List.chain'_cons.mpr ⟨h', hc⟩

theorem chain'_sortSongs (fs : String → Bool) (dU : String) :
    ∀ l : List Song,
      (l.filter fun s => s.metadata.uniqueID == dU).length ≤ 1 →
      List.Chain' (fun u v => songLt fs dU v u = false) (sortSongs (songLt fs dU) l)
  | [], _ => by simp [sortSongs]
  | x :: xs, h => by
    by_cases hx : x.metadata.uniqueID = dU
    · have hcons : ((x :: xs).filter fun s => s.metadata.uniqueID == dU) =
          x :: (xs.filter fun s => s.metadata.uniqueID == dU) := by
        simp [List.filter_cons, hx]
      rw [hcons] at h
      have hxs : ∀ z ∈ xs, z.metadata.uniqueID ≠ dU := by simpa using h
      have hfil : (xs.filter fun s => s.metadata.uniqueID == dU) = [] := by
        refine List.filter_eq_nil_iff.mpr ?_
        intro a ha
        simpa using hxs a ha
      have ih := chain'_sortSongs fs dU xs (by rw [hfil]; simp)
      refine chain'_insertSorted _ x _ ih ?_
      intro z hz hlt
      rw [songLt_to_default fs dU z x hx (hxs z (mem_sortSongs hz))] at hlt
      cases hlt
    · have hcons : ((x :: xs).filter fun s => s.metadata.uniqueID == dU) =
          xs.filter fun s => s.metadata.uniqueID == dU := by
        simp [List.filter_cons, hx]
      rw [hcons] at h
      have ih := chain'_sortSongs fs dU xs h
      refine chain'_insertSorted _ x _ ih ?_
      intro z hz hlt
      by_cases hz' : z.metadata.uniqueID = dU
      · exact songLt_to_default fs dU x z hz' hx
      · exact songLt_asymm_nondefault fs dU z x hz' hx hlt

theorem indexAppended_mem {ln : Nongs} {i : Nongs} {s : Song}
    (h : s ∈ indexAppended ln (some i)) : s ∈ i.youtube ∨ s ∈ i.hosted := by
  simp only [indexAppended] at h
  rcases List.mem_append.mp h with h1 | h1
  · exact Or.inl (List.mem_of_mem_filter h1)
  · exact Or.inr (List.mem_of_mem_filter h1)

theorem mergedList_eq (ln : Nongs) (idx : Option Nongs) :
    mergedList ln idx =
      ln.defaultSong ::
        ((ln.locals ++ ln.youtube ++ ln.hosted) ++ indexAppended ln idx) := by
  simp [mergedList, baseList]

theorem mergedRest_not_default (ln : Nongs) (idx : Option Nongs)
    (hl : ∀ s ∈ ln.locals ++ ln.youtube ++ ln.hosted,
      s.metadata.uniqueID ≠ ln.defaultSong.metadata.uniqueID)
    (hi : ∀ i, idx = some i → ∀ s ∈ i.youtube ++ i.hosted,
      s.metadata.uniqueID ≠ ln.defaultSong.metadata.uniqueID) :
    ∀ y ∈ (ln.locals ++ ln.youtube ++ ln.hosted) ++ indexAppended ln idx,
      y.metadata.uniqueID ≠ ln.defaultSong.metadata.uniqueID := by
  intro y hy
  rcases List.mem_append.mp hy with h1 | h1
  · exact hl y h1
  · cases idx with
    | none => simp [indexAppended] at h1
    | some i =>
        rcases indexAppended_mem h1 with hh | hh
        · exact hi i rfl y (List.mem_append.mpr (Or.inl hh))
        · exact hi i rfl y (List.mem_append.mpr (Or.inr hh))

theorem sortSongs_merged_cons (fs : String → Bool) (ln : Nongs) (idx : Option Nongs)
    (hrest : ∀ y ∈ (ln.locals ++ ln.youtube ++ ln.hosted) ++ indexAppended ln idx,
      y.metadata.uniqueID ≠ ln.defaultSong.metadata.uniqueID) :
    sortSongs (songLt fs ln.defaultSong.metadata.uniqueID) (mergedList ln idx) =
      ln.defaultSong ::
        sortSongs (songLt fs ln.defaultSong.metadata.uniqueID)
          ((ln.locals ++ ln.youtube ++ ln.hosted) ++ indexAppended ln idx) := by
  rw [mergedList_eq]
  show insertSorted _ _ _ = _
  apply insertSorted_front
  intro y hy
  exact songLt_to_default fs _ y ln.defaultSong rfl (hrest y (mem_sortSongs hy))

/-- C1 (counterexample): with a local YouTube variant of uniqueID "x" that carries no
indexID and an index YouTube variant sharing uniqueID "x", the list returned by
getNongs contains two variants with uniqueID "x" — both the local and the index copy —
so the claimed dedup does not hold regardless of whether the local variant carries an
indexID. -/
theorem getNongs_dedup_cex :
    (getNongs (fun _ => false) (some cexLocalNongs) (some cexIndexNongs)).map
        (fun l => (l.filter fun s => s.metadata.uniqueID == "x").length) =
      Except.ok 2 := by
  rfl

/-- C1 (amended): if a local Hosted/YouTube variant carries an indexID and an
index-sourced variant of the same kind shares its uniqueID, then the merged list
returned by getNongs contains the local copy, and no variant of the appended
index-sourced portion carries that uniqueID. -/
theorem getNongs_dedup_amended (fs : String → Bool) (ln i : Nongs) (s t : Song)
    (hkind : (s ∈ ln.youtube ∧ t ∈ i.youtube) ∨ (s ∈ ln.hosted ∧ t ∈ i.hosted))
    (hidx : s.indexID.isSome = true)
    (huid : t.metadata.uniqueID = s.metadata.uniqueID) :
    ∀ l, getNongs fs (some ln) (some i) = Except.ok l →
      s ∈ l ∧ ∀ r ∈ indexAppended ln (some i),
        r.metadata.uniqueID ≠ s.metadata.uniqueID := by
  intro l hl
  have hli : l = sortSongs (songLt fs ln.defaultSong.metadata.uniqueID)
      (mergedList ln (some i)) := by
    simpa [getNongs] using hl.symm
  have hadded : s.metadata.uniqueID ∈ addedIndexSongs ln (some i) := by
    rcases hkind with ⟨hsl, htl⟩ | ⟨hsl, htl⟩
    · have hmm : s.metadata.uniqueID ∈ matchedIndexIDs i.youtube s := by
        simp only [matchedIndexIDs, hidx, if_true]
        refine List.mem_filterMap.mpr ⟨t, htl, ?_⟩
        simp [huid]
      refine List.mem_append.mpr (Or.inl ?_)
      exact List.mem_flatten.mpr
        ⟨matchedIndexIDs i.youtube s, List.mem_map_of_mem _ hsl, hmm⟩
    · have hmm : s.metadata.uniqueID ∈ matchedIndexIDs i.hosted s := by
        simp only [matchedIndexIDs, hidx, if_true]
        refine List.mem_filterMap.mpr ⟨t, htl, ?_⟩
        simp [huid]
      refine List.mem_append.mpr (Or.inr ?_)
      exact List.mem_flatten.mpr
        ⟨matchedIndexIDs i.hosted s, List.mem_map_of_mem _ hsl, hmm⟩
  constructor
  · have hsm : s ∈ mergedList ln (some i) := by
      rcases hkind with ⟨hsl, _⟩ | ⟨hsl, _⟩ <;>
        simp [mergedList, baseList, hsl]
    rw [hli]
    exact (sortSongs_perm _ _).mem_iff.mpr hsm
  · intro r hr heq
    have hcond :
        (!((addedIndexSongs ln (some i)).contains r.metadata.uniqueID)) = true := by
      simp only [indexAppended] at hr
      rcases List.mem_append.mp hr with h1 | h1
      · exact (List.mem_filter.mp h1).2
      · exact (List.mem_filter.mp h1).2
    rw [heq] at hcond
    simp at hcond
    exact hcond hadded

/-- C3: for every song id known to the local store (with the spec's uniqueness
invariants: no local non-default variant and no index variant reuses the default's
uniqueID), the list returned by getNongs contains exactly one variant equal to the
default variant, and it is the first element. -/
theorem getNongs_default_first (fs : String → Bool) (ln : Nongs) (idx : Option Nongs)
    (hl : ∀ s ∈ ln.locals ++ ln.youtube ++ ln.hosted,
      s.metadata.uniqueID ≠ ln.defaultSong.metadata.uniqueID)
    (hi : ∀ i, idx = some i → ∀ s ∈ i.youtube ++ i.hosted,
      s.metadata.uniqueID ≠ ln.defaultSong.metadata.uniqueID) :
    ∃ l, getNongs fs (some ln) idx = Except.ok l ∧
      l.head? = some ln.defaultSong ∧ l.count ln.defaultSong = 1 := by
  have hrest := mergedRest_not_default ln idx hl hi
  have hsort := sortSongs_merged_cons fs ln idx hrest
  refine ⟨_, rfl, ?_, ?_⟩
  · show (sortSongs _ (mergedList ln idx)).head? = _
    rw [hsort]
    rfl
  · show (sortSongs _ (mergedList ln idx)).count _ = 1
    have hperm := sortSongs_perm (songLt fs ln.defaultSong.metadata.uniqueID)
      ((ln.locals ++ ln.youtube ++ ln.hosted) ++ indexAppended ln idx)
    have hnot : ln.defaultSong ∉
        (ln.locals ++ ln.youtube ++ ln.hosted) ++ indexAppended ln idx := by
      intro hmem
      exact hrest ln.defaultSong hmem rfl
    rw [hsort, List.count_cons_self, hperm.count_eq, List.count_eq_zero.mpr hnot]

/-- C1 (witness for the amended theorem): a concrete local YouTube variant "y" carrying
an indexID whose uniqueID is shared with an index YouTube variant — the local copy is
in the returned list and no appended index variant carries uniqueID "y". -/
theorem getNongs_dedup_amended_witness :
    wLocalYt ∈
        sortSongs (songLt (fun _ => false) wLocalNongs.defaultSong.metadata.uniqueID)
          (mergedList wLocalNongs (some wIndexNongs)) ∧
      ∀ r ∈ indexAppended wLocalNongs (some wIndexNongs),
        r.metadata.uniqueID ≠ wLocalYt.metadata.uniqueID :=
  getNongs_dedup_amended (fun _ => false) wLocalNongs wIndexNongs wLocalYt wIndexYt
    (Or.inl ⟨by decide, by decide⟩) (by decide) (by decide) _ rfl

/-- C3 (witness): the concrete local store for gdID 1 with an extra YouTube variant
satisfies the uniqueness hypotheses, and getNongs puts its default variant first and
exactly once. -/
theorem getNongs_default_first_witness :
    ∃ l, getNongs (fun _ => false) (some cexLocalNongs) none = Except.ok l ∧
      l.head? = some cexLocalNongs.defaultSong ∧
      l.count cexLocalNongs.defaultSong = 1 :=
  getNongs_default_first (fun _ => false) cexLocalNongs none (by decide)
    (fun i h => nomatch h)

/-- C4 (counterexample): the comparator used by getNongs is not a strict weak ordering
over the lists it sorts: on the merged list for the concrete local store (which contains
the default variant) the comparator relates the default variant to itself, violating
irreflexivity. -/
theorem songLt_not_swo_cex :
    songLt (fun _ => false) cexLocalNongs.defaultSong.metadata.uniqueID cexDefault
        cexDefault = true ∧
      cexDefault ∈ mergedList cexLocalNongs none := by
  decide

/-- C4 (amended): under the spec's uniqueness invariants, getNongs returns a permutation
of the merged list in which every adjacent pair respects the comparator (the transcription
of rules a-f, first differing rule wins, rule e being unreachable); the comparator is
asymmetric on pairs of variants neither of which is the default, but it is not a strict
weak ordering: it relates the default variant to itself. -/
theorem getNongs_sorted_amended (fs : String → Bool) (ln : Nongs) (idx : Option Nongs)
    (hl : ∀ s ∈ ln.locals ++ ln.youtube ++ ln.hosted,
      s.metadata.uniqueID ≠ ln.defaultSong.metadata.uniqueID)
    (hi : ∀ i, idx = some i → ∀ s ∈ i.youtube ++ i.hosted,
      s.metadata.uniqueID ≠ ln.defaultSong.metadata.uniqueID) :
    ∃ l, getNongs fs (some ln) idx = Except.ok l ∧
      List.Perm l (mergedList ln idx) ∧
      List.Chain'
        (fun u v => songLt fs ln.defaultSong.metadata.uniqueID v u = false) l ∧
      songLt fs ln.defaultSong.metadata.uniqueID ln.defaultSong ln.defaultSong =
        true ∧
      ∀ a b : Song, a.metadata.uniqueID ≠ ln.defaultSong.metadata.uniqueID →
        b.metadata.uniqueID ≠ ln.defaultSong.metadata.uniqueID →
        songLt fs ln.defaultSong.metadata.uniqueID a b = true →
        songLt fs ln.defaultSong.metadata.uniqueID b a = false := by
  have hrest := mergedRest_not_default ln idx hl hi
  refine ⟨_, rfl, sortSongs_perm _ _, ?_, songLt_from_default _ _ _ _ rfl, ?_⟩
  · apply chain'_sortSongs
    rw [mergedList_eq, List.filter_cons]
    have hd : (ln.defaultSong.metadata.uniqueID ==
        ln.defaultSong.metadata.uniqueID) = true := by simp
    rw [if_pos hd]
    have : (((ln.locals ++ ln.youtube ++ ln.hosted) ++
        indexAppended ln idx).filter
          fun s => s.metadata.uniqueID == ln.defaultSong.metadata.uniqueID) = [] := by
      refine List.filter_eq_nil_iff.mpr ?_
      intro a ha
      simpa using hrest a ha
    rw [this]
    simp
  · intro a b ha hb h
    exact songLt_asymm_nondefault fs _ a b ha hb h

/-- C4 (witness for the amended theorem): the amended sortedness statement holds on the
concrete local store for gdID 1 with no index table. -/
theorem getNongs_sorted_amended_witness :
    ∃ l, getNongs (fun _ => false) (some cexLocalNongs) none = Except.ok l ∧
      List.Perm l (mergedList cexLocalNongs none) ∧
      List.Chain'
        (fun u v =>
          songLt (fun _ => false) cexLocalNongs.defaultSong.metadata.uniqueID v u =
            false) l ∧
      songLt (fun _ => false) cexLocalNongs.defaultSong.metadata.uniqueID
          cexLocalNongs.defaultSong cexLocalNongs.defaultSong = true ∧
      ∀ a b : Song,
        a.metadata.uniqueID ≠ cexLocalNongs.defaultSong.metadata.uniqueID →
        b.metadata.uniqueID ≠ cexLocalNongs.defaultSong.metadata.uniqueID →
        songLt (fun _ => false) cexLocalNongs.defaultSong.metadata.uniqueID a b =
          true →
        songLt (fun _ => false) cexLocalNongs.defaultSong.metadata.uniqueID b a =
          false :=
  getNongs_sorted_amended (fun _ => false) cexLocalNongs none (by decide)
    (fun i h => nomatch h)

theorem string_length_zero {s : String} (h : s.length = 0) : s = "" := by
  cases s with
  | mk data =>
      have hd : data = [] := by simpa [String.length, List.length_eq_zero] using h
      subst hd
      rfl

theorem eraseKey_not_key {α : Type} (m : List (String × α)) (k : String) :
    ∀ p ∈ eraseKey m k, (p.1 == k) = false := by
  intro p hp
  have h := (List.mem_filter.mp hp).2
  simpa using h

theorem mapLookup_none_not_key {α : Type} (m : List (String × α)) (k : String)
    (h : mapLookup m k = none) : ∀ p ∈ m, (p.1 == k) = false := by
  induction m with
  | nil => intro p hp; cases hp
  | cons q ps ih =>
    intro p hp
    by_cases hq : (q.1 == k) = true
    · simp [mapLookup, hq] at h
    · have hq' : (q.1 == k) = false := by simpa using hq
      rw [show mapLookup (q :: ps) k = mapLookup ps k from by simp [mapLookup, hq']]
        at h
      rcases List.mem_cons.mp hp with rfl | hps
      · exact hq'
      · exact ih h p hps

theorem any_key_false {α : Type} (m : List (String × α)) (k : String)
    (h : ∀ p ∈ m, (p.1 == k) = false) : m.any (fun p => p.1 == k) = false := by
  rw [List.any_eq_false]
  intro p hp
  simp [h p hp]

theorem mapLookup_append_single {α : Type} (l : List (String × α)) (k : String)
    (v : α) (h : ∀ p ∈ l, (p.1 == k) = false) :
    mapLookup (l ++ [(k, v)]) k = some v := by
  induction l with
  | nil => simp [mapLookup]
  | cons p ps ih =>
    have hp := h p (by simp)
    rw [show (p :: ps) ++ [(k, v)] = p :: (ps ++ [(k, v)]) from rfl]
    rw [show mapLookup (p :: (ps ++ [(k, v)])) k = mapLookup (ps ++ [(k, v)]) k from
      by simp [mapLookup, hp]]
    exact ih fun q hq => h q (by simp [hq])

theorem filter_key_append_single {α : Type} (l : List (String × α)) (k : String)
    (v : α) (h : ∀ p ∈ l, (p.1 == k) = false) :
    (l ++ [(k, v)]).filter (fun p => p.1 == k) = [(k, v)] := by
  rw [List.filter_append]
  rw [List.filter_eq_nil_iff.mpr (fun p hp => by simp [h p hp])]
  simp

/-- C5: starting a non-Local download for a uniqueID synchronously cancels any live
task for it — the old task's cancellation terminal events (cancellation error, then
state-changed for the old task's gdID) precede the new task's zero-progress event —
and afterwards the new listener is registered for that uniqueID with exactly one
bookkeeping entry (single flight). -/
theorem downloadSong_single_flight (st : PipelineState) (gd : Int) (id : String) :
    (downloadSongStart st gd id false).2.2 = Except.ok () ∧
      (downloadSongStart st gd id false).2.1 =
        (match mapLookup st.listeners id with
         | some g =>
             [DlEvent.errorEvent false "Failed to fetch song: cancelled",
               DlEvent.stateChanged g]
         | none => []) ++ [DlEvent.progressEvent gd id 0] ∧
      mapLookup (downloadSongStart st gd id false).1.listeners id = some gd ∧
      ((downloadSongStart st gd id false).1.listeners.filter
        (fun p => p.1 == id)).length = 1 := by
  cases hlk : mapLookup st.listeners id with
  | none =>
      have hkeys := mapLookup_none_not_key st.listeners id hlk
      have hany := any_key_false st.listeners id hkeys
      have hemp : emplaceKey st.listeners id gd = st.listeners ++ [(id, gd)] := by
        simp [emplaceKey, hany]
      refine ⟨rfl, ?_, ?_, ?_⟩
      · simp [downloadSongStart, cancelOld, hlk]
      · simp only [downloadSongStart, cancelOld, hlk, Bool.false_eq_true, if_false]
        rw [hemp]
        exact mapLookup_append_single st.listeners id gd hkeys
      · simp only [downloadSongStart, cancelOld, hlk, Bool.false_eq_true, if_false]
        rw [hemp, filter_key_append_single st.listeners id gd hkeys]
        rfl
  | some g =>
      have hkeys := eraseKey_not_key st.listeners id
      have hany := any_key_false (eraseKey st.listeners id) id hkeys
      have hemp : emplaceKey (eraseKey st.listeners id) id gd =
          eraseKey st.listeners id ++ [(id, gd)] := by
        simp [emplaceKey, hany]
      refine ⟨rfl, ?_, ?_, ?_⟩
      · simp [downloadSongStart, cancelOld, hlk]
      · simp only [downloadSongStart, cancelOld, hlk, Bool.false_eq_true, if_false]
        rw [hemp]
        exact mapLookup_append_single _ id gd hkeys
      · simp only [downloadSongStart, cancelOld, hlk, Bool.false_eq_true, if_false]
        rw [hemp, filter_key_append_single _ id gd hkeys]
        rfl

/-- C6: for every YouTube download whose video id is not exactly 11 characters long,
the task finishes immediately with the invalid-id error and no network request — no
resolver POST and no audio GET — is issued, whatever the oracles would answer. -/
theorem ytTaskRun_invalid_id (ytID : String) (cancelledA : Bool)
    (meta : MetaResponse) (cancelledB : Bool) (audioOk : Bool) (genPath : String)
    (h : ytID.length ≠ 11) :
    ytTaskRun ytID cancelledA meta cancelledB audioOk genPath =
      (Except.error "Invalid YouTube ID", []) := by
  simp [ytTaskRun, h]

/-- C6 (witness): the 5-character video id "short" fails immediately with no network
request. -/
theorem ytTaskRun_invalid_id_witness :
    ytTaskRun "short" false
        { ok := true, json := Except.ok { status := some "stream", url := some "u" } }
        false true "p.mp3" =
      (Except.error "Invalid YouTube ID", []) :=
  ytTaskRun_invalid_id "short" false
    { ok := true, json := Except.ok { status := some "stream", url := some "u" } }
    false true "p.mp3" (by decide)

/-- C2 (counterexample): a successful Hosted fetch with an empty response body does not
skip the commit step: the generated destination file is written with zero bytes and the
terminal listener assigns the indexID and asks the local store to set the song active. -/
theorem hosted_empty_body_cex :
    (hostedDownloadRun 1 "u1" "nongs1.mp3" { ok := true, data := [] }
        (Except.ok ())).1 = [("nongs1.mp3", 0)] ∧
      DlAction.setIndexID "u1" ∈
        (hostedDownloadRun 1 "u1" "nongs1.mp3" { ok := true, data := [] }
          (Except.ok ())).2 ∧
      DlAction.setActive 1 "u1" ∈
        (hostedDownloadRun 1 "u1" "nongs1.mp3" { ok := true, data := [] }
          (Except.ok ())).2 := by
  decide

/-- C2 (amended): for a successful Hosted fetch the body (empty or not) is written to
the generated destination and the commit step is skipped exactly when that destination
path is the empty string — the skip condition tests the path, not the body; on a failed
fetch nothing is written and no commit happens. -/
theorem hosted_commit_skip_amended (gd : Int) (id genPath : String)
    (resp : WebResponse) (saRes : Except String Unit) :
    (resp.ok = true →
      (hostedDownloadRun gd id genPath resp saRes).1 =
          [(genPath, resp.data.length)] ∧
        (genPath = "" →
          (hostedDownloadRun gd id genPath resp saRes).2 =
            [DlAction.eraseProgress id, DlAction.eraseListener id,
              DlAction.postStateChanged gd]) ∧
        (genPath ≠ "" →
          DlAction.setIndexID id ∈ (hostedDownloadRun gd id genPath resp saRes).2 ∧
            DlAction.setActive gd id ∈
              (hostedDownloadRun gd id genPath resp saRes).2)) ∧
      (resp.ok = false →
        (hostedDownloadRun gd id genPath resp saRes).1 = [] ∧
          DlAction.setIndexID id ∉ (hostedDownloadRun gd id genPath resp saRes).2) := by
  constructor
  · intro hok
    refine ⟨by simp [hostedDownloadRun, hostedFetchMap, hok], ?_, ?_⟩
    · intro hp
      subst hp
      simp [hostedDownloadRun, hostedFetchMap, hok, downloadTerminalActions]
    · intro hp
      have hlen : ¬ genPath.length = 0 := by
        intro h0
        exact hp (string_length_zero h0)
      cases saRes <;>
        simp [hostedDownloadRun, hostedFetchMap, hok, downloadTerminalActions, hlen]
  · intro hok
    refine ⟨by simp [hostedDownloadRun, hostedFetchMap, hok], ?_⟩
    simp [hostedDownloadRun, hostedFetchMap, hok, downloadTerminalActions]

/-- C2 (witness for the amended theorem): with a nonempty generated path "p.mp3" the
commit actions are present; with an empty generated path the commit is skipped. -/
theorem hosted_commit_skip_amended_witness :
    (DlAction.setIndexID "u2" ∈
        (hostedDownloadRun 2 "u2" "p.mp3" { ok := true, data := [7] }
          (Except.ok ())).2 ∧
      DlAction.setActive 2 "u2" ∈
        (hostedDownloadRun 2 "u2" "p.mp3" { ok := true, data := [7] }
          (Except.ok ())).2) ∧
      (hostedDownloadRun 2 "u2" "" { ok := true, data := [7] } (Except.ok ())).2 =
        [DlAction.eraseProgress "u2", DlAction.eraseListener "u2",
          DlAction.postStateChanged 2] :=
  ⟨((hosted_commit_skip_amended 2 "u2" "p.mp3" { ok := true, data := [7] }
      (Except.ok ())).1 rfl).2.2 (by decide),
    ((hosted_commit_skip_amended 2 "u2" "" { ok := true, data := [7] }
      (Except.ok ())).1 rfl).2.1 rfl⟩

/-- C8: for every terminal (non-progress) delivery to a download task's listener, the
progress and listener bookkeeping entries are erased first, and exactly one state-changed
notification appears among the subsequent actions — whatever the outcome (cancellation,
error, empty or nonempty destination, setActive success or failure). -/
theorem downloadTerminal_one_state_changed (gd : Int) (id : String)
    (o : TaskOutcome) (saRes : Except String Unit)
    (hterm : o.isProgressTick = false) :
    (downloadTerminalActions gd id o saRes).take 2 =
        [DlAction.eraseProgress id, DlAction.eraseListener id] ∧
      (downloadTerminalActions gd id o saRes).countP isStateChangedA = 1 := by
  cases o with
  | progress p => simp [TaskOutcome.isProgressTick] at hterm
  | cancelled =>
      constructor <;> rfl
  | finished v =>
      cases v with
      | error e => constructor <;> rfl
      | ok dest =>
          by_cases hd : dest.length = 0
          · constructor <;> simp [downloadTerminalActions, hd, isStateChangedA,
              List.countP_cons]
          · cases saRes <;>
              (constructor <;> simp [downloadTerminalActions, hd, isStateChangedA,
                List.countP_cons])

/-- C8 (witness): a cancelled task erases both entries first and posts exactly one
state-changed notification. -/
theorem downloadTerminal_one_state_changed_witness :
    (downloadTerminalActions 3 "u3" TaskOutcome.cancelled (Except.ok ())).take 2 =
        [DlAction.eraseProgress "u3", DlAction.eraseListener "u3"] ∧
      (downloadTerminalActions 3 "u3" TaskOutcome.cancelled
          (Except.ok ())).countP isStateChangedA = 1 :=
  downloadTerminal_one_state_changed 3 "u3" TaskOutcome.cancelled (Except.ok ()) rfl

theorem stageA_bounds {x : ℚ} (h0 : 0 ≤ x) (h100 : x ≤ 100) :
    0 ≤ stageAProgress x ∧ stageAProgress x ≤ 1 / 10 := by
  unfold stageAProgress
  constructor <;> linarith

theorem stageB_bounds {x : ℚ} (h0 : 0 ≤ x) (h100 : x ≤ 100) :
    1 / 10 ≤ stageBProgress x ∧ stageBProgress x ≤ 1 := by
  unfold stageBProgress
  constructor <;> linarith

theorem stageA_mono {x y : ℚ} (h : x ≤ y) : stageAProgress x ≤ stageAProgress y := by
  unfold stageAProgress
  linarith

theorem stageB_mono {x y : ℚ} (h : x ≤ y) : stageBProgress x ≤ stageBProgress y := by
  unfold stageBProgress
  linarith

/-- C7: when the raw progress values delivered within each stage are percentages in
[0, 100] and non-decreasing, every stage-A report (raw / 1000) lies in [0, 0.1], every
stage-B report (raw / 100 * 0.9 + 0.1) lies in [0.1, 1], and the whole reported
sequence of one YouTube task is monotonically non-decreasing, including across the
stage boundary. -/
theorem yt_progress_monotone (aRaws bRaws : List ℚ)
    (ha : ∀ x ∈ aRaws, 0 ≤ x ∧ x ≤ 100) (hb : ∀ x ∈ bRaws, 0 ≤ x ∧ x ≤ 100)
    (hma : List.Chain' (· ≤ ·) aRaws) (hmb : List.Chain' (· ≤ ·) bRaws) :
    (∀ y ∈ aRaws.map stageAProgress, 0 ≤ y ∧ y ≤ 1 / 10) ∧
      (∀ y ∈ bRaws.map stageBProgress, 1 / 10 ≤ y ∧ y ≤ 1) ∧
      List.Chain' (· ≤ ·) (ytReportedProgress aRaws bRaws) := by
  have hA : ∀ y ∈ aRaws.map stageAProgress, 0 ≤ y ∧ y ≤ 1 / 10 := by
    intro y hy
    rcases List.mem_map.mp hy with ⟨x, hx, rfl⟩
    exact stageA_bounds (ha x hx).1 (ha x hx).2
  have hB : ∀ y ∈ bRaws.map stageBProgress, 1 / 10 ≤ y ∧ y ≤ 1 := by
    intro y hy
    rcases List.mem_map.mp hy with ⟨x, hx, rfl⟩
    exact stageB_bounds (hb x hx).1 (hb x hx).2
  refine ⟨hA, hB, ?_⟩
  rw [ytReportedProgress, List.chain'_append]
  refine ⟨?_, ?_, ?_⟩
  · exact (List.chain'_map _).mpr (hma.imp fun a b h => stageA_mono h)
  · exact (List.chain'_map _).mpr (hmb.imp fun a b h => stageB_mono h)
  · intro x hx y hy
    have hxm : x ∈ aRaws.map stageAProgress := by
      rcases List.mem_getLast?_eq_getLast hx with ⟨hne, rfl⟩
      exact List.getLast_mem hne
    have hym : y ∈ bRaws.map stageBProgress := List.mem_of_mem_head? hy
    calc x ≤ 1 / 10 := (hA x hxm).2
      _ ≤ y := (hB y hym).1

/-- C7 (witness): concrete raw sequences 0, 50, 100 in stage A and 0, 100 in stage B
satisfy the hypotheses and yield bounded, monotone reported progress. -/
theorem yt_progress_monotone_witness :
    (∀ y ∈ ([0, 50, 100] : List ℚ).map stageAProgress, 0 ≤ y ∧ y ≤ 1 / 10) ∧
      (∀ y ∈ ([0, 100] : List ℚ).map stageBProgress, 1 / 10 ≤ y ∧ y ≤ 1) ∧
      List.Chain' (· ≤ ·) (ytReportedProgress [0, 50, 100] [0, 100]) :=
  yt_progress_monotone [0, 50, 100] [0, 100] (by norm_num) (by norm_num)
    (by norm_num) (by norm_num)

theorem fetchListener_error_mem (url filepath e : String)
    (loadRes : Except String Unit) :
    FetchAction.postError ("Failed to fetch index: " ++ e) ∈
      fetchListenerTerminal url filepath (some (Except.error e)) loadRes := by
  cases loadRes <;> simp [fetchListenerTerminal]

theorem fetchListener_load_mem (url filepath : String)
    (result : Option (Except String Unit)) (loadRes : Except String Unit) :
    FetchAction.loadIndex filepath ∈
      fetchListenerTerminal url filepath result loadRes := by
  rcases result with _ | r
  · cases loadRes <;> simp [fetchListenerTerminal]
  · cases r <;> cases loadRes <;> simp [fetchListenerTerminal]

/-- C9: for every catalog fetch response, if any processing step fails the cache file is
not written, the task value is an error and the listener posts a fetch-error event; on
success the cache file receives the canonical serialization of the parsed object with
the origin url injected; in both cases the listener loads the per-URL cached file via
loadIndex. -/
theorem fetchIndexes_cache_policy {J : Type} (ops : JsonOps J) (url filepath : String)
    (fileOpenOk : Bool) (resp : FetchResponse) (loadRes : Except String Unit) :
    ((processIndexResponse ops url filepath fileOpenOk resp).1.isOk = false →
        (processIndexResponse ops url filepath fileOpenOk resp).2 = none ∧
          ∃ e, (processIndexResponse ops url filepath fileOpenOk resp).1 =
              Except.error e ∧
            FetchAction.postError ("Failed to fetch index: " ++ e) ∈
              fetchListenerTerminal url filepath
                (some (processIndexResponse ops url filepath fileOpenOk resp).1)
                loadRes) ∧
      ((processIndexResponse ops url filepath fileOpenOk resp).1.isOk = true →
        ∃ j, ops.parse resp.body = Except.ok j ∧ ops.isObject j = true ∧
          (processIndexResponse ops url filepath fileOpenOk resp).2 =
            some (ops.dump (ops.setUrl j url))) ∧
      FetchAction.loadIndex filepath ∈
        fetchListenerTerminal url filepath
          (some (processIndexResponse ops url filepath fileOpenOk resp).1) loadRes := by
  have hshape :
      (∃ e, processIndexResponse ops url filepath fileOpenOk resp =
          (Except.error e, none)) ∨
        ∃ j, ops.parse resp.body = Except.ok j ∧ ops.isObject j = true ∧
          processIndexResponse ops url filepath fileOpenOk resp =
            (Except.ok (), some (ops.dump (ops.setUrl j url))) := by
    by_cases hok : (resp.ok && resp.strOk) = true
    · cases hparse : ops.parse resp.body with
      | error e =>
          exact Or.inl ⟨e, by simp [processIndexResponse, hok, hparse]⟩
      | ok j =>
          by_cases hobj : ops.isObject j = true
          · cases hval : ops.validate (ops.setUrl j url) with
            | error e =>
                exact Or.inl ⟨e, by
                  simp [processIndexResponse, hok, hparse, hobj, hval]⟩
            | ok u =>
                by_cases hfile : fileOpenOk = true
                · exact Or.inr ⟨j, rfl, hobj, by
                    simp [processIndexResponse, hok, hparse, hobj, hval, hfile]⟩
                · exact Or.inl ⟨"Failed to open file: " ++ filepath, by
                    simp [processIndexResponse, hok, hparse, hobj, hval, hfile]⟩
          · exact Or.inl ⟨"Index supposed to be an object", by
              simp [processIndexResponse, hok, hparse, hobj]⟩
    · exact Or.inl ⟨"Web request failed", by simp [processIndexResponse, hok]⟩
  rcases hshape with ⟨e, he⟩ | ⟨j, hj, hobj, hpr⟩
  · refine ⟨?_, ?_, ?_⟩
    · intro _
      refine ⟨by rw [he], e, by rw [he], ?_⟩
      rw [he]
      exact fetchListener_error_mem url filepath e loadRes
    · intro habs
      rw [he] at habs
      simp [Except.isOk, Except.toBool] at habs
    · rw [he]
      exact fetchListener_load_mem url filepath _ loadRes
  · refine ⟨?_, ?_, ?_⟩
    · intro habs
      rw [hpr] at habs
      simp [Except.isOk, Except.toBool] at habs
    · intro _
      exact ⟨j, hj, hobj, by rw [hpr]⟩
    · rw [hpr]
      exact fetchListener_load_mem url filepath _ loadRes

/-- C9 (witness): a failing fetch (HTTP failure) leaves the cache unwritten, posts the
fetch error and still loads the cached file; a successful one writes the serialized
object with the url injected and loads it. -/
theorem fetchIndexes_cache_policy_witness :
    (processIndexResponse opsW "u" "f.json" true
          { ok := false, strOk := true, body := "B" }).2 = none ∧
      FetchAction.loadIndex "f.json" ∈
        fetchListenerTerminal "u" "f.json"
          (some (processIndexResponse opsW "u" "f.json" true
            { ok := false, strOk := true, body := "B" }).1) (Except.ok ()) ∧
      (processIndexResponse opsW "u" "f.json" true
          { ok := true, strOk := true, body := "B" }).2 = some "Bu" :=
  ⟨((fetchIndexes_cache_policy opsW "u" "f.json" true
      { ok := false, strOk := true, body := "B" } (Except.ok ())).1 rfl).1,
    (fetchIndexes_cache_policy opsW "u" "f.json" true
      { ok := false, strOk := true, body := "B" } (Except.ok ())).2.2,
    by
      rcases (fetchIndexes_cache_policy opsW "u" "f.json" true
          { ok := true, strOk := true, body := "B" } (Except.ok ())).2.1 rfl with
        ⟨j, hj, _, hw⟩
      cases hj
      exact hw⟩

/-- C10: every call to fetchIndexes empties the download-task listener map and the
in-memory index-variant table, does not erase the progress map, and afterwards
getSongDownloadProgress returns none for every uniqueID because it checks listener-map
membership first. -/
theorem fetchIndexes_clears_download_listeners (st : IMState)
    (sources : Except String (List IndexSource)) (id : String) :
    (fetchIndexesState st sources).downloadListeners = [] ∧
      (fetchIndexesState st sources).downloadProgress = st.downloadProgress ∧
      (fetchIndexesState st sources).indexNongs = [] ∧
      getSongDownloadProgress (fetchIndexesState st sources) id = none := by
  cases sources <;> simp [fetchIndexesState, getSongDownloadProgress]

end Jukebox
